import Mathlib

/-!
Verification of the connection-URI resolution and protocol-negotiation logic of
the `shift/mqtt-client` repository (`src/MqttClient.cpp`, `include/MqttClient.h`).

The embedding models:
  * the locator parser / builder (`parseMqttUri` / `buildMqttUri` of `UriUtils.h`,
    whose implementation file is not part of the sources; those two functions are
    modelled from the spec, as marked on their doc comments);
  * the `MqttClient` object state as a structure of its fields, with the external
    MQTT engine abstracted by an environment `Env` saying whether
    `esp_mqtt_client_init` / `esp_mqtt_client_start` succeed for a protocol;
  * each member function as a state transformer that also returns the list of
    observable actions (engine calls and application callbacks) it performs,
    in order.

Strings of the C++ code are modelled as `List Char`; raw byte buffers of the
event handler as `List Nat`; a `char*` that may be null as an `Option`.
-/

namespace MqttSpec

/-- Modelled from the spec: the four recognized locator schemes of §4.1
(`mqtt`→plain, `mqtts`→secure, `ws`→websocket-plain, `wss`→websocket-secure);
the implementation of `UriUtils.h` is not among the sources. -/
inductive Scheme where
  | mqtt
  | mqtts
  | ws
  | wss
  deriving DecidableEq

/-- Modelled from the spec: whether the scheme is one of the secure ones
(`mqtts` / `wss`); mirrors `UriParts::isSecure()` used at `MqttClient.cpp:188`. -/
def Scheme.isSecure : Scheme → Bool
  | .mqtts => true
  | .wss => true
  | _ => false

/-- Modelled from the spec: whether the scheme is one of the WebSocket ones
(`ws` / `wss`); mirrors `UriParts::isWebSocket()` used at `MqttClient.cpp:187`. -/
def Scheme.isWebSocket : Scheme → Bool
  | .ws => true
  | .wss => true
  | _ => false

/-- Modelled from the spec §3: default port per scheme
(1883 for plain and ws, 8883 for secure and wss). -/
def Scheme.defaultPort : Scheme → Nat
  | .mqtt => 1883
  | .ws => 1883
  | .mqtts => 8883
  | .wss => 8883

/-- Modelled from the spec: the scheme text emitted by the builder,
chosen from \x7bmqtt, mqtts, ws, wss\x7d. -/
def Scheme.text : Scheme → List Char
  | .mqtt => ['m', 'q', 't', 't']
  | .mqtts => ['m', 'q', 't', 't', 's']
  | .ws => ['w', 's']
  | .wss => ['w', 's', 's']

/-- Modelled from the spec: recognizing a (lower-cased) scheme text. -/
def schemeOfChars (cs : List Char) : Option Scheme :=
  if cs = Scheme.text .mqtt then some .mqtt
  else if cs = Scheme.text .mqtts then some .mqtts
  else if cs = Scheme.text .ws then some .ws
  else if cs = Scheme.text .wss then some .wss
  else none

/-- Modelled from the spec §3: the `UriParts` structure of `UriUtils.h`
(TransportParts: scheme, host, port, path). -/
structure UriParts where
  scheme : Scheme
  host : List Char
  port : Nat
  path : List Char
  deriving DecidableEq

/-- Modelled from the spec: split a character list at the first occurrence of
the `://` separator, returning the scheme text and the remainder;
`none` when there is no separator. -/
def splitSep : List Char → Option (List Char × List Char)
  | [] => none
  | c :: rest =>
    if c = ':' ∧ rest.take 2 = ['/', '/'] then some ([], rest.drop 2)
    else
      match splitSep rest with
      | none => none
      | some (a, b) => some (c :: a, b)

/-- Modelled from the spec: split at the first occurrence of a separator
character; the second component is `none` when the separator does not occur. -/
def splitAtChar (sep : Char) : List Char → List Char × Option (List Char)
  | [] => ([], none)
  | c :: rest =>
    if c = sep then ([], some rest)
    else
      let r := splitAtChar sep rest
      (c :: r.1, r.2)

/-- Modelled from the spec §4.1: embedded credentials in the authority portion
are recognized and discarded; returns the part after the last `@`
(the whole list when there is none). -/
def afterLastAt : List Char → List Char
  | [] => []
  | c :: rest => if c = '@' ∨ '@' ∈ rest then afterLastAt rest else c :: rest

/-- Numeric value of a decimal digit string, as accumulated left to right. -/
def digitsVal (cs : List Char) : Nat :=
  cs.foldl (fun a c => a * 10 + (c.toNat - 48)) 0

/-- Modelled from the spec §4.1: a present port must be a non-empty decimal
string denoting an integer in 1–65535 (§3 data-model range); otherwise the
locator is rejected. -/
def parsePort (cs : List Char) : Option Nat :=
  if cs = [] then none
  else if cs.all Char.isDigit then
    let n := digitsVal cs
    if 1 ≤ n ∧ n ≤ 65535 then some n else none
  else none

/-- Decimal digits of `n`, least significant first; the first argument is
fuel, which `natToRevDigits` instantiates to `n` itself. -/
def natToRevDigitsAux : Nat → Nat → List Char
  | 0, _ => []
  | _ + 1, 0 => []
  | fuel + 1, n + 1 =>
    Char.ofNat (48 + (n + 1) % 10) :: natToRevDigitsAux fuel ((n + 1) / 10)

/-- Decimal digits of `n`, least significant first (`[]` for 0). -/
def natToRevDigits (n : Nat) : List Char := natToRevDigitsAux n n

/-- Decimal rendering of `n`, most significant digit first (`[]` for 0). -/
def renderNat (n : Nat) : List Char := (natToRevDigits n).reverse

/-- Modelled from the spec §4.1: `Parse` on a locator character list: split the
scheme at `://`, recognize it case-insensitively, split authority from path at
the first `/`, discard credentials up to the last `@`, split host from port at
the first `:`, reject an empty host or an invalid port, default an absent port
per scheme and an absent path to `/`; any path after the host is retained
verbatim. -/
def parseUriChars (xs : List Char) : Option UriParts :=
  match splitSep xs with
  | none => none
  | some (schemeCs, rest) =>
    match schemeOfChars (schemeCs.map Char.toLower) with
    | none => none
    | some sch =>
      let ap := splitAtChar '/' rest
      let path : List Char :=
        match ap.2 with
        | none => ['/']
        | some ps => '/' :: ps
      let hostport := afterLastAt ap.1
      let hp := splitAtChar ':' hostport
      if hp.1 = [] then none
      else
        match hp.2 with
        | none => some ⟨sch, hp.1, sch.defaultPort, path⟩
        | some pcs =>
          match parsePort pcs with
          | none => none
          | some n => some ⟨sch, hp.1, n, path⟩

/-- Modelled from the spec §4.1: the `[:port]` component of `Build`: omitted
when the port equals the default of the scheme (default ports are normalized
away), else `:` followed by the decimal port. -/
def portPart (p : UriParts) : List Char :=
  if p.port = p.scheme.defaultPort then [] else ':' :: renderNat p.port

/-- Modelled from the spec §4.1: the path component of `Build`: included only
when the transport is WebSocket and the path is non-empty, otherwise omitted. -/
def wsPathPart (p : UriParts) : List Char :=
  if p.scheme.isWebSocket = true ∧ p.path ≠ [] then p.path else []

/-- Modelled from the spec §4.1: `Build` emits `scheme://host[:port]path`. -/
def buildUriChars (p : UriParts) : List Char :=
  p.scheme.text ++ (':' :: '/' :: '/' :: (p.host ++ portPart p ++ wsPathPart p))

/-- `parseMqttUri` of `UriUtils.h` on a Lean `String`. -/
def parseMqttUri (s : String) : Option UriParts := parseUriChars s.data

/-- `buildMqttUri` of `UriUtils.h` to a Lean `String`. -/
def buildMqttUri (p : UriParts) : String := String.mk (buildUriChars p)

/-- The fields of the `MqttClient` object (`include/MqttClient.h:65` onward).
`client` is whether `_client` is non-null; `char*` buffers that may be null are
`Option (List Char)`; the three `std::function` callbacks are modelled by
whether they are set. -/
structure ClientState where
  client : Bool
  host : Option (List Char)
  port : Nat
  path : Option (List Char)
  useWebSocket : Bool
  secure : Bool
  uri : Option (List Char)
  username : Option (List Char)
  password : Option (List Char)
  clientId : Option (List Char)
  keepalive : Nat
  connected : Bool
  enableFallback : Bool
  usingFallback : Bool
  hasMessageCallback : Bool
  hasConnectCallback : Bool
  hasDisconnectCallback : Bool
  deriving DecidableEq

/-- The constructor state (`MqttClient.cpp:129`–`148`). -/
def initialState : ClientState :=
  { client := false
    host := none
    port := 1883
    path := none
    useWebSocket := false
    secure := false
    uri := none
    username := none
    password := none
    clientId := none
    keepalive := 30
    connected := false
    enableFallback := false
    usingFallback := false
    hasMessageCallback := false
    hasConnectCallback := false
    hasDisconnectCallback := false }

/-- Observable actions of one call: engine interactions and application
callbacks, in program order. Logging is omitted. -/
inductive Action where
  | engineInit (protocol : Nat)
  | engineStart (protocol : Nat)
  | engineStopDestroy
  | enginePublish (topic payload : List Char) (retain : Bool)
  | engineSubscribe (topic : List Char) (qos : Int)
  | engineUnsubscribe (topic : List Char)
  | connectCb
  | disconnectCb
  | messageCb (topic : List Nat) (payload : List Nat) (len : Nat)
  deriving DecidableEq

/-- Whether an action is the application disconnect callback. -/
def Action.isDisconnectCb : Action → Bool
  | .disconnectCb => true
  | _ => false

/-- Whether an action is an engine connection attempt (init or start). -/
def Action.isEngineAttempt : Action → Bool
  | .engineInit _ => true
  | .engineStart _ => true
  | _ => false

/-- Whether an action is a legacy-protocol (v3.1.1, numeric value 4)
connection attempt. -/
def Action.isLegacyAttempt : Action → Bool
  | .engineInit p => p == 4
  | .engineStart p => p == 4
  | _ => false

/-- Whether an action is a legacy-protocol engine init (the first engine call
of a fallback hop). -/
def Action.isLegacyInit : Action → Bool
  | .engineInit p => p == 4
  | _ => false

/-- Number of disconnect-callback invocations in a trace. -/
def countDisconnectCb (t : List Action) : Nat :=
  t.countP (fun a => a.isDisconnectCb)

/-- Number of legacy-protocol engine inits (fallback hops) in a trace. -/
def countLegacyInit (t : List Action) : Nat :=
  t.countP (fun a => a.isLegacyInit)

/-- The external MQTT engine, abstracted: whether `esp_mqtt_client_init` and
`esp_mqtt_client_start` succeed for a given protocol version, and the message
identifiers returned by publish / subscribe / unsubscribe. -/
structure Env where
  initOk : Nat → Bool
  startOk : Nat → Bool
  publishMsgId : Int
  subscribeMsgId : Int
  unsubscribeMsgId : Int

/-- `_path && *_path`: the stored path pointer is non-null and non-empty. -/
def pathNonempty (s : ClientState) : Bool :=
  match s.path with
  | some p => !p.isEmpty
  | none => false

/-- `MqttClient::buildUriIfNeeded` (`MqttClient.cpp:540`–`559`): free any
previous URI; when WebSocket is in use or a non-empty path is set, build a URI
from the transport flags, host, port and (for WebSocket) the path defaulting
to `/`. -/
def buildUriIfNeeded (s : ClientState) : ClientState :=
  let s0 := { s with uri := none }
  if s0.useWebSocket || pathNonempty s0 then
    let parts : UriParts :=
      { scheme :=
          if s0.secure then (if s0.useWebSocket then .wss else .mqtts)
          else (if s0.useWebSocket then .ws else .mqtt)
        host := s0.host.getD []
        port := s0.port
        path := if s0.useWebSocket then s0.path.getD ['/'] else [] }
    { s0 with uri := some (buildUriChars parts) }
  else s0

/-- `MqttClient::connectWithProtocol` (`MqttClient.cpp:307`–`430`): build the
URI if needed, stop and destroy an existing engine client, initialize a new
one (failure clears the handle and returns false), register events, start it
and return whether the start succeeded. -/
def connectWithProtocol (env : Env) (s : ClientState) (protocol : Nat) :
    ClientState × List Action × Bool :=
  let s1 := buildUriIfNeeded s
  let destroyTrace : List Action :=
    if s1.client then [Action.engineStopDestroy] else []
  if env.initOk protocol then
    ({ s1 with client := true },
     destroyTrace ++ [Action.engineInit protocol, Action.engineStart protocol],
     env.startOk protocol)
  else
    ({ s1 with client := false },
     destroyTrace ++ [Action.engineInit protocol], false)

/-- `MqttClient::connect` (`MqttClient.cpp:272`–`305`): the code first does
`strlen(clientId)` / `strcpy` on the argument — a null pointer is dereferenced
there, before the `!clientId` test, which is modelled as `none` (no defined
result); an empty identifier is then refused; otherwise v5 is attempted, and
on failure v3.1.1 when fallback is enabled. -/
def mqttConnect (env : Env) (s : ClientState) (clientId : Option (List Char)) :
    Option (ClientState × List Action × Bool) :=
  match clientId with
  | none => none
  | some cid =>
    let s0 := { s with clientId := some cid }
    if cid.isEmpty then some (s0, [], false)
    else
      let r5 := connectWithProtocol env s0 5
      if r5.2.2 then some ({ r5.1 with usingFallback := false }, r5.2.1, true)
      else if r5.1.enableFallback then
        let r4 := connectWithProtocol env r5.1 4
        if r4.2.2 then
          some ({ r4.1 with usingFallback := true }, r5.2.1 ++ r4.2.1, true)
        else some (r4.1, r5.2.1 ++ r4.2.1, false)
      else some (r5.1, r5.2.1, false)

/-- `MqttClient::onConnectedInternal` (`MqttClient.cpp:485`–`492`). -/
def onConnectedInternal (s : ClientState) : ClientState × List Action :=
  ({ s with connected := true },
   if s.hasConnectCallback then [Action.connectCb] else [])

/-- `MqttClient::reconnectWithFallback` (`MqttClient.cpp:513`–`529`): attempt
v3.1.1; on success mark the fallback as in use, on failure invoke the
disconnect callback. -/
def reconnectWithFallback (env : Env) (s : ClientState) :
    ClientState × List Action :=
  let r := connectWithProtocol env s 4
  if r.2.2 then ({ r.1 with usingFallback := true }, r.2.1)
  else
    (r.1,
     r.2.1 ++ if r.1.hasDisconnectCallback then [Action.disconnectCb] else [])

/-- `MqttClient::onDisconnectedInternal` (`MqttClient.cpp:494`–`511`): clear
the connected flag; when the client was connected, fallback is enabled and not
already in use, attempt the fallback (deferring any disconnect callback to
it); otherwise invoke the disconnect callback. -/
def onDisconnectedInternal (env : Env) (s : ClientState) :
    ClientState × List Action :=
  let wasConnected := s.connected
  let s1 := { s with connected := false }
  if wasConnected && s1.enableFallback && !s1.usingFallback then
    reconnectWithFallback env s1
  else
    (s1, if s1.hasDisconnectCallback then [Action.disconnectCb] else [])

/-- The `MQTT_EVENT_ERROR` branch of `mqtt_event_handler`
(`MqttClient.cpp:67`–`120`): diagnostic printing only — no state change and no
callback. -/
def mqttEventError (s : ClientState) : ClientState × List Action := (s, [])

/-- The `MQTT_EVENT_DATA` branch of `mqtt_event_handler`
(`MqttClient.cpp:53`–`66`) followed by `MqttClient::onDataInternal`
(`MqttClient.cpp:531`–`535`): the topic is copied into a 256-byte buffer only
when `topic_len < 256`, the payload into a 512-byte buffer only when
`data_len < 512` (otherwise the zero-initialized buffer stays empty), and the
message callback receives the buffers together with the original
`event->data_len`. -/
def mqttEventData (s : ClientState) (topic payload : List Nat) : List Action :=
  let topicBuf := if topic.length < 256 then topic else []
  let dataBuf := if payload.length < 512 then payload else []
  if s.hasMessageCallback then
    [Action.messageCb topicBuf dataBuf payload.length]
  else []

/-- `MqttClient::publish` (`MqttClient.cpp:438`–`445`): -1 without engine
interaction when no engine client exists. -/
def publish (env : Env) (s : ClientState) (topic payload : List Char)
    (retain : Bool) : ClientState × List Action × Int :=
  if s.client then
    (s, [Action.enginePublish topic payload retain], env.publishMsgId)
  else (s, [], -1)

/-- `MqttClient::subscribe` (`MqttClient.cpp:447`–`453`): -1 without engine
interaction when no engine client exists. -/
def subscribe (env : Env) (s : ClientState) (topic : List Char) (qos : Int) :
    ClientState × List Action × Int :=
  if s.client then
    (s, [Action.engineSubscribe topic qos], env.subscribeMsgId)
  else (s, [], -1)

/-- `MqttClient::unsubscribe` (`MqttClient.cpp:455`–`461`): -1 without engine
interaction when no engine client exists. -/
def unsubscribe (env : Env) (s : ClientState) (topic : List Char) :
    ClientState × List Action × Int :=
  if s.client then
    (s, [Action.engineUnsubscribe topic], env.unsubscribeMsgId)
  else (s, [], -1)

/-- `MqttClient::parseUriComponents` (`MqttClient.cpp:173`–`195`): on a parse
failure return with the state untouched; on success store host, port and the
transport flags, and the path when the scheme is a WebSocket one. -/
def parseUriComponents (s : ClientState) (uri : List Char) : ClientState :=
  match parseUriChars uri with
  | none => s
  | some parts =>
    let s1 :=
      { s with
        host := some parts.host
        port := parts.port
        useWebSocket := parts.scheme.isWebSocket
        secure := parts.scheme.isSecure }
    if parts.scheme.isWebSocket then { s1 with path := some parts.path } else s1

/-- `MqttClient::begin` (`MqttClient.cpp:197`–`199`). -/
def clientBegin (s : ClientState) (brokerUri : List Char) : ClientState :=
  parseUriComponents s brokerUri

/-- An engine that accepts every init and start. -/
def envAllOk : Env := ⟨fun _ => true, fun _ => true, 1, 2, 3⟩

/-- An engine that rejects every init. -/
def envInitFail : Env := ⟨fun _ => false, fun _ => false, 1, 2, 3⟩

/-- An engine whose init succeeds but whose start fails. -/
def envStartFail : Env := ⟨fun _ => true, fun _ => false, 1, 2, 3⟩

/-- A client with an established preferred-protocol session, fallback enabled
and a disconnect callback registered. -/
def sConnected : ClientState :=
  { initialState with
    client := true
    connected := true
    enableFallback := true
    hasDisconnectCallback := true }

/-- A client with an established legacy-protocol (fallback) session. -/
def sLegacy : ClientState :=
  { initialState with
    client := true
    connected := true
    enableFallback := true
    usingFallback := true
    hasDisconnectCallback := true }

/-- A client with fallback disabled and a disconnect callback registered. -/
def sNoFallback : ClientState :=
  { initialState with
    client := true
    connected := true
    hasDisconnectCallback := true }

/-- A client whose engine client exists but whose connection was never
established (a start that is pending or has failed asynchronously), with
fallback enabled. -/
def sPreConnect : ClientState :=
  { initialState with
    client := true
    enableFallback := true
    hasDisconnectCallback := true }

/-- A client with a message callback registered. -/
def sMsgCb : ClientState := { initialState with hasMessageCallback := true }

/-- A two-byte topic for the oversized-payload counterexample. -/
def cexTopicBytes : List Nat := [104, 105]

/-- A 512-byte payload, the smallest size the event handler refuses to copy. -/
def cexPayloadBytes : List Nat := List.replicate 512 7

/-- The locator of the round-trip counterexample: a plain-socket scheme with a
non-root path. -/
def cexLocator : String := "mqtt://h/foo"

/-- What `Parse` yields on `cexLocator`. -/
def cexParts : UriParts := ⟨.mqtt, ['h'], 1883, ['/', 'f', 'o', 'o']⟩

/-- What re-parsing `Build(Parse(cexLocator))` yields: the path is gone. -/
def cexReParts : UriParts := ⟨.mqtt, ['h'], 1883, ['/']⟩

/-- Parts of the round-trip witness locator `ws://h:9001/p`. -/
def wParts : UriParts := ⟨.ws, ['h'], 9001, ['/', 'p']⟩

/-- A malformed locator (no `://` separator). -/
def badLocator : List Char := ['n', 'o', 't', '-', 'a', '-', 'u', 'r', 'i']

end MqttSpec

namespace MqttSpec

/-- C7: when the locator is malformed (no `://` separator, unknown scheme,
empty host or invalid port — the cases in which the parser fails),
`begin` aborts configuring the transport and the whole state, in particular
the previously stored host and port, is unchanged. -/
theorem begin_malformed_locator_keeps_state (s : ClientState) (uri : List Char)
    (h : parseUriChars uri = none) : clientBegin s uri = s := by
  simp [clientBegin, parseUriComponents, h]

theorem begin_malformed_locator_keeps_state_witness :
    parseUriChars badLocator = none ∧
    clientBegin sConnected badLocator = sConnected :=
  ⟨by decide,
   begin_malformed_locator_keeps_state sConnected badLocator (by decide)⟩

/-- C8 (code bug): `connect` copies the client identifier with
`strlen`/`strcpy` (`MqttClient.cpp:273`–`274`) before its own
`!clientId` test (`MqttClient.cpp:277`), so a null identifier is dereferenced
and the refusal can never fire for it (modelled as no defined result, `none`);
an empty identifier is refused with `false` before any engine interaction, as
the claim states. -/
theorem connect_null_id_dereferenced :
    mqttConnect envAllOk initialState none = none ∧
    mqttConnect envAllOk initialState (some []) =
      some ({ initialState with clientId := some [] }, [], false) :=
  ⟨rfl, rfl⟩

/-- C10: when no engine client exists (no connect attempt was ever made),
publish, subscribe and unsubscribe each return -1 with no engine interaction
and an unchanged state. -/
theorem ops_without_engine_client (env : Env) (s : ClientState)
    (topic payload : List Char) (qos : Int) (retain : Bool)
    (h : s.client = false) :
    publish env s topic payload retain = (s, [], -1) ∧
    subscribe env s topic qos = (s, [], -1) ∧
    unsubscribe env s topic = (s, [], -1) := by
  simp [publish, subscribe, unsubscribe, h]

theorem ops_without_engine_client_witness :
    initialState.client = false ∧
    (publish envAllOk initialState ['t'] ['p'] true = (initialState, [], -1) ∧
     subscribe envAllOk initialState ['t'] 1 = (initialState, [], -1) ∧
     unsubscribe envAllOk initialState ['t'] = (initialState, [], -1)) :=
  ⟨rfl, ops_without_engine_client envAllOk initialState ['t'] ['p'] 1 true rfl⟩

/-- C4 counterexample: with fallback enabled, an engine client present and an
engine that would accept a legacy attempt, a disconnect event that precedes an
established connection (`_connected == false`, the situation after an
asynchronous transport error during a connect) produces only the disconnect
callback and no legacy-protocol attempt — not the fallback the claim
describes. -/
theorem preconnect_disconnect_cex :
    (onDisconnectedInternal envAllOk sPreConnect).2 = [Action.disconnectCb] ∧
    ∀ a ∈ (onDisconnectedInternal envAllOk sPreConnect).2,
      a.isEngineAttempt = false := by
  exact ⟨rfl, by decide⟩

/-- C4 (amended): a transport-level error event is diagnostic-only (no state
change, no callback), and a disconnect event arriving while no connection was
established invokes only the disconnect callback when one is registered: no
fallback attempt is made for a failure that precedes an established session,
whatever the fallback setting. -/
theorem preconnect_disconnect_report_only (env : Env) (s : ClientState)
    (h : s.connected = false) :
    mqttEventError s = (s, []) ∧
    onDisconnectedInternal env s =
      ({ s with connected := false },
       if s.hasDisconnectCallback then [Action.disconnectCb] else []) := by
  refine ⟨rfl, ?_⟩
  simp [onDisconnectedInternal, h]

theorem preconnect_disconnect_report_only_witness :
    sPreConnect.connected = false ∧
    (mqttEventError sPreConnect = (sPreConnect, []) ∧
     onDisconnectedInternal envAllOk sPreConnect =
       ({ sPreConnect with connected := false },
        if sPreConnect.hasDisconnectCallback then [Action.disconnectCb]
        else [])) :=
  ⟨rfl, preconnect_disconnect_report_only envAllOk sPreConnect rfl⟩

/-- C5 counterexample: a 512-byte payload fails the handler's
`data_len < sizeof(data)` guard and is not copied, so the message callback
receives an empty payload while the reported length is still 512 — the
payload bytes are not forwarded verbatim. -/
theorem data_event_not_verbatim_cex :
    mqttEventData sMsgCb cexTopicBytes cexPayloadBytes =
      [Action.messageCb cexTopicBytes [] 512] ∧
    cexPayloadBytes ≠ [] := by
  set_option maxRecDepth 4096 in
  exact ⟨by decide, by decide⟩

/-- C5 (amended): the topic and payload bytes are forwarded verbatim with the
reported length exactly when they fit the handler's fixed buffers
(`topic_len < 256` and `data_len < 512`); an oversized topic or payload is
replaced by an empty buffer while the length reported to the callback remains
the original `data_len`. -/
theorem data_event_forwarding (s : ClientState) (topic payload : List Nat)
    (hcb : s.hasMessageCallback = true) :
    (topic.length < 256 → payload.length < 512 →
      mqttEventData s topic payload =
        [Action.messageCb topic payload payload.length]) ∧
    (256 ≤ topic.length →
      mqttEventData s topic payload =
        [Action.messageCb [] (if payload.length < 512 then payload else [])
          payload.length]) ∧
    (512 ≤ payload.length →
      mqttEventData s topic payload =
        [Action.messageCb (if topic.length < 256 then topic else []) []
          payload.length]) := by
  refine ⟨fun h1 h2 => ?_, fun h1 => ?_, fun h1 => ?_⟩
  · simp [mqttEventData, hcb, h1, h2]
  · have h2 : ¬ topic.length < 256 := by omega
    simp [mqttEventData, hcb, h2]
  · have h2 : ¬ payload.length < 512 := by omega
    simp [mqttEventData, hcb, h2]

theorem data_event_forwarding_witness :
    sMsgCb.hasMessageCallback = true ∧
    ((([3] : List Nat).length < 256 → ([7, 8] : List Nat).length < 512 →
       mqttEventData sMsgCb [3] [7, 8] = [Action.messageCb [3] [7, 8] 2]) ∧
     (256 ≤ ([3] : List Nat).length →
       mqttEventData sMsgCb [3] [7, 8] =
         [Action.messageCb []
           (if ([7, 8] : List Nat).length < 512 then [7, 8] else []) 2]) ∧
     (512 ≤ ([7, 8] : List Nat).length →
       mqttEventData sMsgCb [3] [7, 8] =
         [Action.messageCb (if ([3] : List Nat).length < 256 then [3] else [])
           [] 2])) :=
  ⟨rfl, data_event_forwarding sMsgCb [3] [7, 8] rfl⟩

end MqttSpec

namespace MqttSpec

lemma buildUriIfNeeded_client (s : ClientState) :
    (buildUriIfNeeded s).client = s.client := by
  simp only [buildUriIfNeeded]
  split <;> rfl

lemma buildUriIfNeeded_enableFallback (s : ClientState) :
    (buildUriIfNeeded s).enableFallback = s.enableFallback := by
  simp only [buildUriIfNeeded]
  split <;> rfl

lemma buildUriIfNeeded_usingFallback (s : ClientState) :
    (buildUriIfNeeded s).usingFallback = s.usingFallback := by
  simp only [buildUriIfNeeded]
  split <;> rfl

lemma buildUriIfNeeded_hasDisconnectCallback (s : ClientState) :
    (buildUriIfNeeded s).hasDisconnectCallback = s.hasDisconnectCallback := by
  simp only [buildUriIfNeeded]
  split <;> rfl

lemma buildUriIfNeeded_connected (s : ClientState) :
    (buildUriIfNeeded s).connected = s.connected := by
  simp only [buildUriIfNeeded]
  split <;> rfl

/-- C1: after an established session (`_connected` true) with a disconnect
callback registered, a disconnect event invokes the callback exactly once,
except when fallback applies (enabled, not already in use) and the fallback
attempt immediately succeeds (legacy init and start both accepted), in which
case it is not invoked; the callback only ever occupies the final position of
the event's action trace, after the fallback attempt's engine actions; and
whenever fallback applies, a legacy engine init is indeed attempted. -/
theorem disconnect_callback_exactly_once (env : Env) (s : ClientState)
    (hc : s.connected = true) (hcb : s.hasDisconnectCallback = true) :
    countDisconnectCb (onDisconnectedInternal env s).2 =
      (if s.enableFallback = true ∧ s.usingFallback = false ∧
          env.initOk 4 = true ∧ env.startOk 4 = true then 0 else 1) ∧
    (∀ a ∈ (onDisconnectedInternal env s).2.dropLast,
      a.isDisconnectCb = false) ∧
    (s.enableFallback = true → s.usingFallback = false →
      Action.engineInit 4 ∈ (onDisconnectedInternal env s).2) := by
  cases hef : s.enableFallback <;> cases huf : s.usingFallback <;>
    cases hcl : s.client <;> cases hi : env.initOk 4 <;>
      cases hs : env.startOk 4 <;>
        simp [onDisconnectedInternal, reconnectWithFallback,
          connectWithProtocol, countDisconnectCb, buildUriIfNeeded_client,
          buildUriIfNeeded_hasDisconnectCallback,
          buildUriIfNeeded_enableFallback, buildUriIfNeeded_usingFallback,
          hc, hcb, hef, huf, hcl, hi, hs, Action.isDisconnectCb]

theorem disconnect_callback_exactly_once_witness :
    (sConnected.connected = true ∧ sConnected.hasDisconnectCallback = true) ∧
    (countDisconnectCb (onDisconnectedInternal envStartFail sConnected).2 =
      (if sConnected.enableFallback = true ∧ sConnected.usingFallback = false ∧
          envStartFail.initOk 4 = true ∧ envStartFail.startOk 4 = true
       then 0 else 1) ∧
     (∀ a ∈ (onDisconnectedInternal envStartFail sConnected).2.dropLast,
       a.isDisconnectCb = false) ∧
     (sConnected.enableFallback = true → sConnected.usingFallback = false →
       Action.engineInit 4 ∈ (onDisconnectedInternal envStartFail sConnected).2)) :=
  ⟨⟨rfl, rfl⟩, disconnect_callback_exactly_once envStartFail sConnected rfl rfl⟩

/-- C2: while connected via the legacy protocol (`_usingFallback` true), a
disconnect event performs no engine connection attempt at all (no further
fallback); moreover, for any state, one `connect` call performs at most one
legacy-protocol engine init, and one disconnect event performs at most one —
at most one fallback hop per connect cycle. -/
theorem legacy_session_never_falls_back_again (env : Env) (s s2 : ClientState)
    (cid : List Char) (huf : s.usingFallback = true) :
    (∀ a ∈ (onDisconnectedInternal env s).2, a.isEngineAttempt = false) ∧
    (∀ r ∈ mqttConnect env s2 (some cid), countLegacyInit r.2.1 ≤ 1) ∧
    countLegacyInit (onDisconnectedInternal env s2).2 ≤ 1 := by
  refine ⟨?_, ?_, ?_⟩
  · cases hc : s.connected <;> cases hef : s.enableFallback <;>
      simp [onDisconnectedInternal, hc, hef, huf, Action.isEngineAttempt]
  · intro r hr
    simp only [Option.mem_def] at hr
    cases hcid : cid.isEmpty <;>
      cases hef : s2.enableFallback <;> cases hcl : s2.client <;>
        cases hi5 : env.initOk 5 <;> cases hs5 : env.startOk 5 <;>
          cases hi4 : env.initOk 4 <;> cases hs4 : env.startOk 4 <;>
            simp [mqttConnect, connectWithProtocol, countLegacyInit,
              buildUriIfNeeded_client, buildUriIfNeeded_enableFallback,
              hcid, hef, hcl, hi5, hs5, hi4, hs4, Action.isLegacyInit] at hr <;>
            (try subst hr) <;>
            simp_all [countLegacyInit, Action.isLegacyInit]
  · cases hc : s2.connected <;> cases hef : s2.enableFallback <;>
      cases huf2 : s2.usingFallback <;> cases hcl : s2.client <;>
        cases hi : env.initOk 4 <;> cases hs : env.startOk 4 <;>
          cases hdc : s2.hasDisconnectCallback <;>
            simp [onDisconnectedInternal, reconnectWithFallback,
              connectWithProtocol, countLegacyInit, buildUriIfNeeded_client,
              buildUriIfNeeded_hasDisconnectCallback,
              buildUriIfNeeded_enableFallback, buildUriIfNeeded_usingFallback,
              hc, hef, huf2, hcl, hi, hs, hdc, Action.isLegacyInit,
              Action.isDisconnectCb]

theorem legacy_session_never_falls_back_again_witness :
    sLegacy.usingFallback = true ∧
    ((∀ a ∈ (onDisconnectedInternal envAllOk sLegacy).2,
       a.isEngineAttempt = false) ∧
     (∀ r ∈ mqttConnect envAllOk sConnected (some ['i', 'd']),
       countLegacyInit r.2.1 ≤ 1) ∧
     countLegacyInit (onDisconnectedInternal envAllOk sConnected).2 ≤ 1) :=
  ⟨rfl,
   legacy_session_never_falls_back_again envAllOk sLegacy sConnected
     ['i', 'd'] rfl⟩

/-- C3: with fallback disabled, neither a `connect` call nor a disconnect
event ever performs a legacy-protocol engine action; and when the preferred
(v5) init or start fails, `connect` reports failure (returns false)
immediately. -/
theorem fallback_disabled_never_legacy (env : Env) (s : ClientState)
    (cid : List Char) (hef : s.enableFallback = false) :
    (∀ r ∈ mqttConnect env s (some cid),
      (∀ a ∈ r.2.1, a.isLegacyAttempt = false) ∧
      (env.initOk 5 = false ∨ env.startOk 5 = false → r.2.2 = false)) ∧
    (∀ a ∈ (onDisconnectedInternal env s).2, a.isLegacyAttempt = false) := by
  refine ⟨?_, ?_⟩
  · intro r hr
    simp only [Option.mem_def] at hr
    cases hcid : cid.isEmpty <;> cases hcl : s.client <;>
      cases hi5 : env.initOk 5 <;> cases hs5 : env.startOk 5 <;>
        simp [mqttConnect, connectWithProtocol,
          buildUriIfNeeded_client, buildUriIfNeeded_enableFallback,
          hcid, hef, hcl, hi5, hs5] at hr <;>
        (try subst hr) <;>
        simp_all [Action.isLegacyAttempt]
  · cases hc : s.connected <;>
      simp [onDisconnectedInternal, hc, hef, Action.isLegacyAttempt]

theorem fallback_disabled_never_legacy_witness :
    sNoFallback.enableFallback = false ∧
    ((∀ r ∈ mqttConnect envInitFail sNoFallback (some ['i', 'd']),
       (∀ a ∈ r.2.1, a.isLegacyAttempt = false) ∧
       (envInitFail.initOk 5 = false ∨ envInitFail.startOk 5 = false →
         r.2.2 = false)) ∧
     (∀ a ∈ (onDisconnectedInternal envInitFail sNoFallback).2,
       a.isLegacyAttempt = false)) :=
  ⟨rfl,
   fallback_disabled_never_legacy envInitFail sNoFallback ['i', 'd'] rfl⟩

end MqttSpec

namespace MqttSpec

lemma splitSep_of_no_colon (xs ys : List Char) (h : ':' ∉ xs) :
    splitSep (xs ++ ':' :: '/' :: '/' :: ys) = some (xs, ys) := by
  induction xs with
  | nil => simp [splitSep]
  | cons c rest ih =>
    have hc : ¬ c = ':' := fun e => h (by simp [e])
    have hr : ':' ∉ rest := fun hm => h (List.mem_cons_of_mem _ hm)
    simp [splitSep, hc, ih hr]

lemma splitAtChar_of_not_mem (sep : Char) (xs : List Char) (h : sep ∉ xs) :
    splitAtChar sep xs = (xs, none) := by
  induction xs with
  | nil => rfl
  | cons c rest ih =>
    have hc : ¬ c = sep := fun e => h (by simp [e])
    have hr : sep ∉ rest := fun hm => h (List.mem_cons_of_mem _ hm)
    simp [splitAtChar, hc, ih hr]

lemma splitAtChar_append (sep : Char) (xs ys : List Char) (h : sep ∉ xs) :
    splitAtChar sep (xs ++ sep :: ys) = (xs, some ys) := by
  induction xs with
  | nil => simp [splitAtChar]
  | cons c rest ih =>
    have hc : ¬ c = sep := fun e => h (by simp [e])
    have hr : sep ∉ rest := fun hm => h (List.mem_cons_of_mem _ hm)
    simp [splitAtChar, hc, ih hr]

lemma afterLastAt_of_no_at (xs : List Char) (h : '@' ∉ xs) :
    afterLastAt xs = xs := by
  induction xs with
  | nil => rfl
  | cons c rest ih =>
    have hc : ¬ c = '@' := fun e => h (by simp [e])
    have hr : ¬ '@' ∈ rest := fun hm => h (List.mem_cons_of_mem _ hm)
    simp [afterLastAt, hc, hr]

lemma splitAtChar_fst_not_sep (sep : Char) (xs : List Char) :
    sep ∉ (splitAtChar sep xs).1 := by
  induction xs with
  | nil => simp [splitAtChar]
  | cons c rest ih =>
    by_cases hc : c = sep
    · simp [splitAtChar, hc]
    · intro hm
      simp only [splitAtChar, if_neg hc] at hm
      rcases List.mem_cons.mp hm with h1 | h2
      · exact hc h1.symm
      · exact ih h2

lemma splitAtChar_fst_mem (sep : Char) (xs : List Char) :
    ∀ c ∈ (splitAtChar sep xs).1, c ∈ xs := by
  induction xs with
  | nil => simp [splitAtChar]
  | cons a rest ih =>
    by_cases ha : a = sep
    · simp [splitAtChar, ha]
    · intro c hc
      simp only [splitAtChar, if_neg ha] at hc
      rcases List.mem_cons.mp hc with h1 | h2
      · simp [h1]
      · exact List.mem_cons_of_mem _ (ih c h2)

lemma afterLastAt_mem (xs : List Char) : ∀ c ∈ afterLastAt xs, c ∈ xs := by
  induction xs with
  | nil => simp [afterLastAt]
  | cons a rest ih =>
    by_cases hcond : a = '@' ∨ '@' ∈ rest
    · intro c hc
      simp only [afterLastAt, if_pos hcond] at hc
      exact List.mem_cons_of_mem _ (ih c hc)
    · intro c hc
      simp only [afterLastAt, if_neg hcond] at hc
      exact hc

lemma afterLastAt_no_at (xs : List Char) : '@' ∉ afterLastAt xs := by
  induction xs with
  | nil => simp [afterLastAt]
  | cons a rest ih =>
    by_cases hcond : a = '@' ∨ '@' ∈ rest
    · simpa [afterLastAt, if_pos hcond] using ih
    · have h1 : ¬ a = '@' := fun e => hcond (Or.inl e)
      have h2 : '@' ∉ rest := fun hm => hcond (Or.inr hm)
      simp only [afterLastAt, if_neg hcond]
      intro hm
      rcases List.mem_cons.mp hm with h3 | h4
      · exact h1 h3.symm
      · exact h2 h4

lemma toNat_ofNat_digit (r : Nat) (h : r < 10) :
    (Char.ofNat (48 + r)).toNat = 48 + r := by
  interval_cases r <;> decide

lemma isDigit_ofNat_digit (r : Nat) (h : r < 10) :
    (Char.ofNat (48 + r)).isDigit = true := by
  interval_cases r <;> decide

lemma ofNat_digit_ne (r : Nat) (h : r < 10) :
    Char.ofNat (48 + r) ≠ ':' ∧ Char.ofNat (48 + r) ≠ '/' ∧
    Char.ofNat (48 + r) ≠ '@' := by
  interval_cases r <;> decide

lemma natToRevDigitsAux_mem (fuel : Nat) :
    ∀ n, ∀ c ∈ natToRevDigitsAux fuel n,
      c.isDigit = true ∧ c ≠ ':' ∧ c ≠ '/' ∧ c ≠ '@' := by
  induction fuel with
  | zero => intro n c hc; simp [natToRevDigitsAux] at hc
  | succ fuel ih =>
    intro n c hc
    cases n with
    | zero => simp [natToRevDigitsAux] at hc
    | succ m =>
      simp only [natToRevDigitsAux, List.mem_cons] at hc
      rcases hc with h1 | h2
      · subst h1
        have hr : (m + 1) % 10 < 10 := Nat.mod_lt _ (by decide)
        exact ⟨isDigit_ofNat_digit _ hr, ofNat_digit_ne _ hr⟩
      · exact ih _ c h2

lemma digitsVal_append (xs : List Char) (c : Char) :
    digitsVal (xs ++ [c]) = digitsVal xs * 10 + (c.toNat - 48) := by
  simp [digitsVal, List.foldl_append]

lemma digitsVal_natToRevDigitsAux (fuel : Nat) :
    ∀ n, n ≤ fuel → digitsVal (natToRevDigitsAux fuel n).reverse = n := by
  induction fuel with
  | zero =>
    intro n hn
    interval_cases n
    simp [natToRevDigitsAux, digitsVal]
  | succ fuel ih =>
    intro n hn
    cases n with
    | zero => simp [natToRevDigitsAux, digitsVal]
    | succ m =>
      have hq : (m + 1) / 10 ≤ fuel := by
        have h1 : (m + 1) / 10 < m + 1 :=
          Nat.div_lt_self (Nat.succ_pos m) (by decide)
        omega
      have hr : (m + 1) % 10 < 10 := Nat.mod_lt _ (by decide)
      simp only [natToRevDigitsAux, List.reverse_cons]
      rw [digitsVal_append, ih _ hq, toNat_ofNat_digit _ hr]
      omega

lemma digitsVal_renderNat (n : Nat) : digitsVal (renderNat n) = n :=
  digitsVal_natToRevDigitsAux n n le_rfl

lemma renderNat_ne_nil (n : Nat) (h : 1 ≤ n) : renderNat n ≠ [] := by
  cases n with
  | zero => omega
  | succ m => simp [renderNat, natToRevDigits, natToRevDigitsAux]

lemma renderNat_mem (n : Nat) :
    ∀ c ∈ renderNat n, c.isDigit = true ∧ c ≠ ':' ∧ c ≠ '/' ∧ c ≠ '@' := by
  intro c hc
  simp only [renderNat, natToRevDigits, List.mem_reverse] at hc
  exact natToRevDigitsAux_mem n n c hc

lemma parsePort_renderNat (n : Nat) (h1 : 1 ≤ n) (h2 : n ≤ 65535) :
    parsePort (renderNat n) = some n := by
  have hne := renderNat_ne_nil n h1
  have hall : (renderNat n).all Char.isDigit = true := by
    rw [List.all_eq_true]
    intro c hc
    exact (renderNat_mem n c hc).1
  simp [parsePort, hne, hall, digitsVal_renderNat, h1, h2]

lemma parsePort_bounds (cs : List Char) (n : Nat) (h : parsePort cs = some n) :
    1 ≤ n ∧ n ≤ 65535 := by
  simp only [parsePort] at h
  split at h
  · exact absurd h (by simp)
  · split at h
    · split at h
      · rename_i hrange
        injection h with h
        subst h
        exact hrange
      · exact absurd h (by simp)
    · exact absurd h (by simp)

lemma defaultPort_bounds (sch : Scheme) :
    1 ≤ sch.defaultPort ∧ sch.defaultPort ≤ 65535 := by
  cases sch <;> exact ⟨by decide, by decide⟩

lemma scheme_text_no_colon (sch : Scheme) : ':' ∉ sch.text := by
  cases sch <;> decide

lemma schemeOfChars_lower_text (sch : Scheme) :
    schemeOfChars (sch.text.map Char.toLower) = some sch := by
  cases sch <;> decide

end MqttSpec

namespace MqttSpec

lemma parseUriChars_shape (xs : List Char) (p : UriParts)
    (h : parseUriChars xs = some p) :
    p.host ≠ [] ∧ (∀ c ∈ p.host, c ≠ ':' ∧ c ≠ '/' ∧ c ≠ '@') ∧
    1 ≤ p.port ∧ p.port ≤ 65535 ∧ ∃ t, p.path = '/' :: t := by
  simp only [parseUriChars] at h
  split at h
  · exact absurd h (by simp)
  · rename_i schemeCs rest hsep
    split at h
    · exact absurd h (by simp)
    · rename_i sch hsch
      split at h
      · exact absurd h (by simp)
      · rename_i hne
        have hmemhost :
            ∀ c ∈ (splitAtChar ':'
              (afterLastAt (splitAtChar '/' rest).1)).1,
              c ≠ ':' ∧ c ≠ '/' ∧ c ≠ '@' := by
          intro c hc
          have hc1 : c ∈ afterLastAt (splitAtChar '/' rest).1 :=
            splitAtChar_fst_mem ':' _ c hc
          have hc2 : c ∈ (splitAtChar '/' rest).1 :=
            afterLastAt_mem _ c hc1
          refine ⟨?_, ?_, ?_⟩
          · intro e
            exact splitAtChar_fst_not_sep ':' _ (e ▸ hc)
          · intro e
            exact splitAtChar_fst_not_sep '/' _ (e ▸ hc2)
          · intro e
            exact afterLastAt_no_at _ (e ▸ hc1)
        have hpathshape :
            ∃ t, (match (splitAtChar '/' rest).2 with
              | none => ['/']
              | some ps => '/' :: ps) = '/' :: t := by
          cases (splitAtChar '/' rest).2 with
          | none => exact ⟨[], rfl⟩
          | some ps => exact ⟨ps, rfl⟩
        split at h
        · injection h with h
          subst h
          exact ⟨hne, hmemhost, (defaultPort_bounds sch).1,
            (defaultPort_bounds sch).2, hpathshape⟩
        · rename_i pcs hpcs
          split at h
          · exact absurd h (by simp)
          · rename_i n hn
            injection h with h
            subst h
            exact ⟨hne, hmemhost, (parsePort_bounds pcs n hn).1,
              (parsePort_bounds pcs n hn).2, hpathshape⟩

end MqttSpec

namespace MqttSpec

lemma hostport_no_slash (host : List Char) (n : Nat) (h : '/' ∉ host) :
    '/' ∉ host ++ ':' :: renderNat n := by
  intro hm
  rcases List.mem_append.mp hm with h1 | h1
  · exact h h1
  · rcases List.mem_cons.mp h1 with h2 | h2
    · exact absurd h2 (by decide)
    · exact (renderNat_mem _ _ h2).2.2.1 rfl

lemma hostport_no_at (host : List Char) (n : Nat) (h : '@' ∉ host) :
    '@' ∉ host ++ ':' :: renderNat n := by
  intro hm
  rcases List.mem_append.mp hm with h1 | h1
  · exact h h1
  · rcases List.mem_cons.mp h1 with h2 | h2
    · exact absurd h2 (by decide)
    · exact (renderNat_mem _ _ h2).2.2.2 rfl

lemma parse_build_chars (x : List Char) (p : UriParts)
    (h : parseUriChars x = some p) :
    ∃ q, parseUriChars (buildUriChars p) = some q ∧
      q.scheme = p.scheme ∧ q.host = p.host ∧ q.port = p.port ∧
      ((p.scheme.isWebSocket = true ∨ p.path = ['/']) → q.path = p.path) := by
  obtain ⟨hhost, hchars, hp1, hp2, t, hpath⟩ := parseUriChars_shape x p h
  have hcolon : ':' ∉ p.host := fun hm => (hchars _ hm).1 rfl
  have hslash : '/' ∉ p.host := fun hm => (hchars _ hm).2.1 rfl
  have hat : '@' ∉ p.host := fun hm => (hchars _ hm).2.2 rfl
  have hsplit1 : splitSep (buildUriChars p) =
      some (p.scheme.text, p.host ++ portPart p ++ wsPathPart p) := by
    simp only [buildUriChars]
    exact splitSep_of_no_colon _ _ (scheme_text_no_colon p.scheme)
  cases hws : p.scheme.isWebSocket with
  | true =>
    have hpne : p.path ≠ [] := by simp [hpath]
    have hwsp : wsPathPart p = p.path := by simp [wsPathPart, hws, hpne]
    by_cases hdef : p.port = p.scheme.defaultPort
    · have hb : p.host ++ portPart p ++ wsPathPart p = p.host ++ '/' :: t := by
        simp [portPart, hdef, hwsp, hpath]
      have h2 : splitAtChar '/' (p.host ++ '/' :: t) = (p.host, some t) :=
        splitAtChar_append '/' _ _ hslash
      have h3 : afterLastAt p.host = p.host := afterLastAt_of_no_at _ hat
      have h4 : splitAtChar ':' p.host = (p.host, none) :=
        splitAtChar_of_not_mem ':' _ hcolon
      refine ⟨⟨p.scheme, p.host, p.scheme.defaultPort, '/' :: t⟩, ?_, rfl, rfl,
        hdef.symm, fun _ => hpath.symm⟩
      simp only [parseUriChars, hsplit1, hb, schemeOfChars_lower_text,
        h2, h3, h4]
      simp [hhost]
    · have hpp : portPart p = ':' :: renderNat p.port := by
        simp [portPart, hdef]
      have hb : p.host ++ portPart p ++ wsPathPart p =
          (p.host ++ ':' :: renderNat p.port) ++ '/' :: t := by
        simp [hpp, hwsp, hpath]
      have h2 : splitAtChar '/'
          ((p.host ++ ':' :: renderNat p.port) ++ '/' :: t) =
          (p.host ++ ':' :: renderNat p.port, some t) :=
        splitAtChar_append '/' _ _ (hostport_no_slash _ _ hslash)
      have h3 : afterLastAt (p.host ++ ':' :: renderNat p.port) =
          p.host ++ ':' :: renderNat p.port :=
        afterLastAt_of_no_at _ (hostport_no_at _ _ hat)
      have h4 : splitAtChar ':' (p.host ++ ':' :: renderNat p.port) =
          (p.host, some (renderNat p.port)) :=
        splitAtChar_append ':' _ _ hcolon
      have h5 : parsePort (renderNat p.port) = some p.port :=
        parsePort_renderNat _ hp1 hp2
      refine ⟨⟨p.scheme, p.host, p.port, '/' :: t⟩, ?_, rfl, rfl, rfl,
        fun _ => hpath.symm⟩
      simp only [parseUriChars, hsplit1, hb, schemeOfChars_lower_text,
        h2, h3, h4, h5]
      simp [hhost]
  | false =>
    have hwsp : wsPathPart p = [] := by simp [wsPathPart, hws]
    by_cases hdef : p.port = p.scheme.defaultPort
    · have hb : p.host ++ portPart p ++ wsPathPart p = p.host := by
        simp [portPart, hdef, hwsp]
      have h2 : splitAtChar '/' p.host = (p.host, none) :=
        splitAtChar_of_not_mem '/' _ hslash
      have h3 : afterLastAt p.host = p.host := afterLastAt_of_no_at _ hat
      have h4 : splitAtChar ':' p.host = (p.host, none) :=
        splitAtChar_of_not_mem ':' _ hcolon
      refine ⟨⟨p.scheme, p.host, p.scheme.defaultPort, ['/']⟩, ?_, rfl, rfl,
        hdef.symm, ?_⟩
      · simp only [parseUriChars, hsplit1, hb, schemeOfChars_lower_text,
          h2, h3, h4]
        simp [hhost]
      · intro hpr
        rcases hpr with h1 | h1
        · simp [hws] at h1
        · exact h1.symm
    · have hpp : portPart p = ':' :: renderNat p.port := by
        simp [portPart, hdef]
      have hb : p.host ++ portPart p ++ wsPathPart p =
          p.host ++ ':' :: renderNat p.port := by
        simp [hpp, hwsp]
      have h2 : splitAtChar '/' (p.host ++ ':' :: renderNat p.port) =
          (p.host ++ ':' :: renderNat p.port, none) :=
        splitAtChar_of_not_mem '/' _ (hostport_no_slash _ _ hslash)
      have h3 : afterLastAt (p.host ++ ':' :: renderNat p.port) =
          p.host ++ ':' :: renderNat p.port :=
        afterLastAt_of_no_at _ (hostport_no_at _ _ hat)
      have h4 : splitAtChar ':' (p.host ++ ':' :: renderNat p.port) =
          (p.host, some (renderNat p.port)) :=
        splitAtChar_append ':' _ _ hcolon
      have h5 : parsePort (renderNat p.port) = some p.port :=
        parsePort_renderNat _ hp1 hp2
      refine ⟨⟨p.scheme, p.host, p.port, ['/']⟩, ?_, rfl, rfl, rfl, ?_⟩
      · simp only [parseUriChars, hsplit1, hb, schemeOfChars_lower_text,
          h2, h3, h4, h5]
        simp [hhost]
      · intro hpr
        rcases hpr with h1 | h1
        · simp [hws] at h1
        · exact h1.symm

/-- C6 counterexample: the locator `mqtt://h/foo` parses with path `/foo`,
but `Build` omits the path of a non-WebSocket scheme, so re-parsing
`Build(Parse(x))` yields the default path `/`: `Parse(Build(Parse(x)))` is
not field-wise equal to `Parse(x)` as the claim states. -/
theorem parse_build_roundtrip_cex :
    parseMqttUri cexLocator = some cexParts ∧
    parseMqttUri (buildMqttUri cexParts) = some cexReParts ∧
    cexReParts.path ≠ cexParts.path :=
  ⟨by decide, by decide, by decide⟩

/-- C6 (amended): for every locator that `Parse` accepts,
`Parse(Build(Parse(x)))` succeeds and agrees with `Parse(x)` on scheme, host
and port; the path also agrees whenever the scheme is a WebSocket one or the
path is the default `/` — for a non-WebSocket scheme with a non-root path,
`Build` omits the path, which re-parses as the default `/`. -/
theorem parse_build_roundtrip_fieldwise (x : String) (p : UriParts)
    (h : parseMqttUri x = some p) :
    ∃ q, parseMqttUri (buildMqttUri p) = some q ∧
      q.scheme = p.scheme ∧ q.host = p.host ∧ q.port = p.port ∧
      ((p.scheme.isWebSocket = true ∨ p.path = ['/']) → q.path = p.path) :=
  parse_build_chars x.data p h

theorem parse_build_roundtrip_fieldwise_witness :
    parseMqttUri "ws://h:9001/p" = some wParts ∧
    ∃ q, parseMqttUri (buildMqttUri wParts) = some q ∧
      q.scheme = wParts.scheme ∧ q.host = wParts.host ∧
      q.port = wParts.port ∧
      ((wParts.scheme.isWebSocket = true ∨ wParts.path = ['/']) →
        q.path = wParts.path) :=
  ⟨by decide,
   parse_build_roundtrip_fieldwise "ws://h:9001/p" wParts (by decide)⟩

end MqttSpec

namespace MqttSpec

/-- C9: `Build` emits `scheme://host[:port]path`: the path component is
appended exactly when the scheme is a WebSocket one and the path is non-empty
(otherwise omitted); the scheme text is the one of \x7bmqtt, mqtts, ws, wss\x7d
determined by the secure and WebSocket flags; and at connect time the client
builds a URI exactly when WebSocket is enabled or a non-empty path is set. -/
theorem build_emits_expected_uri (p : UriParts) (s : ClientState) :
    (p.scheme.isWebSocket = true ∧ p.path ≠ [] →
      buildUriChars p =
        p.scheme.text ++
          (':' :: '/' :: '/' :: (p.host ++ portPart p ++ p.path))) ∧
    (¬(p.scheme.isWebSocket = true ∧ p.path ≠ []) →
      buildUriChars p =
        p.scheme.text ++ (':' :: '/' :: '/' :: (p.host ++ portPart p))) ∧
    ((p.scheme.isSecure = false ∧ p.scheme.isWebSocket = false) ↔
      p.scheme.text = ['m', 'q', 't', 't']) ∧
    ((p.scheme.isSecure = true ∧ p.scheme.isWebSocket = false) ↔
      p.scheme.text = ['m', 'q', 't', 't', 's']) ∧
    ((p.scheme.isSecure = false ∧ p.scheme.isWebSocket = true) ↔
      p.scheme.text = ['w', 's']) ∧
    ((p.scheme.isSecure = true ∧ p.scheme.isWebSocket = true) ↔
      p.scheme.text = ['w', 's', 's']) ∧
    (buildUriIfNeeded s).uri.isSome = (s.useWebSocket || pathNonempty s) := by
  obtain ⟨sch, host, port, path⟩ := p
  obtain ⟨cl, ho, po, pa, ws, se, ur, un, pw, ci, ka, co, ef, uf, mc, cc, dc⟩ := s
  refine ⟨?_, ?_, ?_, ?_, ?_, ?_, ?_⟩
  · intro hc
    simp [buildUriChars, wsPathPart, hc]
  · intro hc
    simp [buildUriChars, wsPathPart, hc]
  · cases sch <;> simp [Scheme.isSecure, Scheme.isWebSocket, Scheme.text]
  · cases sch <;> simp [Scheme.isSecure, Scheme.isWebSocket, Scheme.text]
  · cases sch <;> simp [Scheme.isSecure, Scheme.isWebSocket, Scheme.text]
  · cases sch <;> simp [Scheme.isSecure, Scheme.isWebSocket, Scheme.text]
  · cases ws
    · cases pa with
      | none => simp [buildUriIfNeeded, pathNonempty]
      | some l => cases l <;> simp [buildUriIfNeeded, pathNonempty]
    · simp [buildUriIfNeeded, pathNonempty]

theorem build_emits_expected_uri_witness :
    ((wParts.scheme.isWebSocket = true ∧ wParts.path ≠ [] →
       buildUriChars wParts =
         wParts.scheme.text ++
           (':' :: '/' :: '/' ::
             (wParts.host ++ portPart wParts ++ wParts.path))) ∧
     (¬(wParts.scheme.isWebSocket = true ∧ wParts.path ≠ []) →
       buildUriChars wParts =
         wParts.scheme.text ++
           (':' :: '/' :: '/' :: (wParts.host ++ portPart wParts))) ∧
     ((wParts.scheme.isSecure = false ∧ wParts.scheme.isWebSocket = false) ↔
       wParts.scheme.text = ['m', 'q', 't', 't']) ∧
     ((wParts.scheme.isSecure = true ∧ wParts.scheme.isWebSocket = false) ↔
       wParts.scheme.text = ['m', 'q', 't', 't', 's']) ∧
     ((wParts.scheme.isSecure = false ∧ wParts.scheme.isWebSocket = true) ↔
       wParts.scheme.text = ['w', 's']) ∧
     ((wParts.scheme.isSecure = true ∧ wParts.scheme.isWebSocket = true) ↔
       wParts.scheme.text = ['w', 's', 's']) ∧
     (buildUriIfNeeded initialState).uri.isSome =
       (initialState.useWebSocket || pathNonempty initialState)) :=
  build_emits_expected_uri wParts initialState

end MqttSpec
